import Mathlib

/-!
Shallow embedding of the SVG rectangle extraction and validation engine of
this repository (the parser service: parseNumber, extractFill,
parseDimensions, parseContent and the PARSER_CONFIG limits). Numeric
attribute values are modelled by exact fractions (JavaScript double
arithmetic is idealised as exact rational arithmetic). The external XML
decoder (xml2js parseStringPromise) and the wall clock race in withTimeout
are outside the repository; an input is therefore modelled by its UTF-8
byte length together with the outcome the decoder produces for it.
-/

namespace SvgProcessor

/-- Exact fraction n / d with a positive natural denominator. Fractions are
not kept in lowest terms, so every operation computes by plain integer
arithmetic and evaluates inside the kernel; toRat interprets a fraction as
the rational number it denotes. This is the number model for the
JavaScript arithmetic of the parser. -/
structure Q where
  n : ℤ
  d : ℕ
  dpos : 0 < d

instance : DecidableEq Q := fun a b =>
  decidable_of_iff (a.n = b.n ∧ a.d = b.d) (by
    cases a
    cases b
    constructor
    · rintro ⟨h1, h2⟩
      cases h1
      cases h2
      rfl
    · intro h
      cases h
      exact ⟨rfl, rfl⟩)

def Q.zero : Q := ⟨0, 1, Nat.one_pos⟩

def Q.ofNat (k : ℕ) : Q := ⟨k, 1, Nat.one_pos⟩

def Q.ofInt (k : ℤ) : Q := ⟨k, 1, Nat.one_pos⟩

def Q.half : Q := ⟨1, 2, Nat.succ_pos 1⟩

def Q.add (a b : Q) : Q :=
  ⟨a.n * b.d + b.n * a.d, a.d * b.d, Nat.mul_pos a.dpos b.dpos⟩

def Q.mul (a b : Q) : Q :=
  ⟨a.n * b.n, a.d * b.d, Nat.mul_pos a.dpos b.dpos⟩

def Q.inv (a : Q) : Q :=
  if h : 0 < a.n then ⟨(a.d : ℤ), a.n.toNat, by omega⟩
  else if h2 : a.n < 0 then ⟨-(a.d : ℤ), (-a.n).toNat, by omega⟩
  else Q.zero

def Q.div (a b : Q) : Q := a.mul b.inv

/-- Boolean comparison a ≤ b by cross multiplication. -/
def Q.leb (a b : Q) : Bool := decide (a.n * (b.d : ℤ) ≤ b.n * (a.d : ℤ))

/-- Boolean comparison a < b by cross multiplication. -/
def Q.ltb (a b : Q) : Bool := decide (a.n * (b.d : ℤ) < b.n * (a.d : ℤ))

/-- The rational number a fraction denotes. -/
def Q.toRat (a : Q) : ℚ := (a.n : ℚ) / (a.d : ℚ)

/-- Integer floor of a fraction (the denominator is positive, and integer
division on ℤ is Euclidean, which is floor division for a positive
divisor). -/
def Q.floorInt (a : Q) : ℤ := a.n / (a.d : ℤ)

/-- Powers of ten as naturals. -/
def pow10 : ℕ → ℕ
  | 0 => 1
  | k + 1 => 10 * pow10 k

theorem pow10_pos (k : ℕ) : 0 < pow10 k := by
  induction k with
  | zero => simp [pow10]
  | succ k ih =>
    rw [pow10]
    exact Nat.mul_pos (by norm_num) ih

/-- Integer power of ten as a fraction. -/
def zpow10 (e : ℤ) : Q :=
  if 0 ≤ e then Q.ofNat (pow10 e.toNat) else ⟨1, pow10 (-e).toNat, pow10_pos _⟩

/-- Model of the JavaScript Math.round primitive: round half away from
minus infinity, that is the floor of q + 1/2. -/
def jsMathRound (q : Q) : ℤ := (q.add Q.half).floorInt

/-- Numeric value of a decimal digit character. -/
def digitVal (c : Char) : ℕ := c.toNat - 48

/-- Value of a list of decimal digit characters read in base 10. -/
def natOfDigits (ds : List Char) : ℕ := ds.foldl (fun n c => 10 * n + digitVal c) 0

/-- Model of the JavaScript parseFloat primitive: skip leading whitespace,
then read the longest numeric start of the form sign, digits, optional dot
and fraction digits, optional exponent part (e or E, optional sign and at
least one digit); trailing garbage such as a unit suffix is ignored. The
none outcome models NaN (no digit at all in the significand). The value
sign * (ip + fp / 10 ^ flen) * 10 ^ e is constructed directly as one
fraction. IEEE infinities (the literal Infinity) are outside the model. -/
def jsParseFloat? (s : String) : Option Q :=
  let cs := s.data.dropWhile Char.isWhitespace
  let signAndRest : ℤ × List Char :=
    match cs with
    | '-' :: r => (-1, r)
    | '+' :: r => (1, r)
    | _ => (1, cs)
  let (ipart, cs2) := signAndRest.2.span Char.isDigit
  let (fpart, cs3) :=
    match cs2 with
    | '.' :: r => r.span Char.isDigit
    | _ => ([], cs2)
  if ipart.isEmpty && fpart.isEmpty then none
  else
    let mant : Q :=
      ⟨natOfDigits ipart * pow10 fpart.length + natOfDigits fpart,
        pow10 fpart.length, pow10_pos _⟩
    let expo : ℤ :=
      match cs3 with
      | c :: r =>
        if c == 'e' || c == 'E' then
          let esignAndRest : ℤ × List Char :=
            match r with
            | '-' :: r3 => (-1, r3)
            | '+' :: r3 => (1, r3)
            | _ => (1, r)
          let eds := (esignAndRest.2.span Char.isDigit).1
          if eds.isEmpty then 0 else esignAndRest.1 * (natOfDigits eds : ℤ)
        else 0
      | [] => 0
    some ((Q.ofInt signAndRest.1).mul (mant.mul (zpow10 expo)))

/-- A separator character of the viewBox splitting regular expression,
namely a whitespace character or a comma. -/
def isSep (c : Char) : Bool := c.isWhitespace || c == ','

/-- Worker for jsSplitSep. The accumulator holds the characters of the
current field in reverse; the flag records whether the previous character
belonged to a separator run (so that a whole run makes one cut). -/
def jsSplitGo : List Char → List Char → Bool → List String
  | [], acc, _ => [String.mk acc.reverse]
  | c :: rest, acc, inRun =>
    if isSep c then
      if inRun then jsSplitGo rest acc true
      else String.mk acc.reverse :: jsSplitGo rest [] true
    else jsSplitGo rest (c :: acc) false

/-- Model of the JavaScript split on the regular expression class of
whitespace and commas (one or more): a leading separator run yields an
initial empty field and a trailing run a final empty field, exactly as
the JavaScript String split does. -/
def jsSplitSep (s : String) : List String := jsSplitGo s.data [] false

/-- Model of the JavaScript String trim: remove whitespace from both ends. -/
def jsTrim (cs : List Char) : List Char :=
  ((cs.dropWhile Char.isWhitespace).reverse.dropWhile Char.isWhitespace).reverse

/-! Embedding of the parser source. -/

/-- The shape of the frozen PARSER_CONFIG object of the source. -/
structure ParserLimits where
  maxFileSizeBytes : ℕ
  maxRectangles : ℕ
  maxDimension : ℕ
  parseTimeoutMs : ℕ
deriving DecidableEq

/-- The process wide configuration object of the source. -/
def PARSER_CONFIG : ParserLimits :=
  { maxFileSizeBytes := 5 * 1024 * 1024
    maxRectangles := 10000
    maxDimension := 100000
    parseTimeoutMs := 5000 }

/-- Attributes of the root svg element (each may be absent). -/
structure SVGAttributes where
  width : Option String := none
  height : Option String := none
  viewBox : Option String := none
deriving DecidableEq

/-- Attributes of a rect element (each may be absent). -/
structure RectAttributes where
  x : Option String := none
  y : Option String := none
  width : Option String := none
  height : Option String := none
  fill : Option String := none
  style : Option String := none
deriving DecidableEq

/-- parseNumber of the source. A missing or empty attribute string is
falsy and yields the default, as does a string parseFloat cannot read. -/
def parseNumber (value : Option String) (defaultValue : Q) : Q :=
  match value with
  | none => defaultValue
  | some s =>
    if s = "" then defaultValue
    else
      match jsParseFloat? s with
      | none => defaultValue
      | some q => q

/-- One attempt to match the style regular expression for a fill
declaration (fill, optional whitespace, colon, optional whitespace, then
one or more characters other than a semicolon) at the start of the
character list, case insensitively. On success the raw run of characters
after the colon up to the next semicolon is returned: the capture group
under greedy backtracking takes this run minus some of its leading
whitespace, and the source trims the capture afterwards, so returning the
whole run and trimming later gives the same final string. -/
def matchFillHere (cs : List Char) : Option (List Char) :=
  match cs with
  | c1 :: c2 :: c3 :: c4 :: rest =>
    if c1.toLower == 'f' && c2.toLower == 'i' && c3.toLower == 'l' && c4.toLower == 'l' then
      match rest.dropWhile Char.isWhitespace with
      | ':' :: after =>
        let run := after.takeWhile (fun c => c != ';')
        if run.isEmpty then none else some run
      | _ => none
    else none
  | _ => none

/-- Leftmost match of the fill declaration search in a style string. -/
def findFillValue : List Char → Option (List Char)
  | [] => none
  | c :: rest =>
    match matchFillHere (c :: rest) with
    | some v => some v
    | none => findFillValue rest

/-- extractFill of the source: a truthy (present and nonempty) fill
attribute is returned verbatim; otherwise the style attribute is searched
for a fill declaration whose trimmed value is used; otherwise black. -/
def extractFill (attrs : RectAttributes) : String :=
  let f := attrs.fill.getD ""
  if f ≠ "" then f
  else
    match attrs.style with
    | none => "#000000"
    | some st =>
      match findFillValue st.data with
      | some v => String.mk (jsTrim v)
      | none => "#000000"

/-- Resolved canvas dimensions. -/
structure Dimensions where
  width : Q
  height : Q
deriving DecidableEq

/-- parseDimensions of the source. The viewBox attribute participates only
when it is truthy (present and nonempty) and either direct value is at
most zero; the split must give exactly four fields; fields 3 and 4 then
replace width and height, each keeping its previous value only when its
viewBox field does not parse. -/
def parseDimensions (attrs : SVGAttributes) : Dimensions :=
  let width := parseNumber attrs.width Q.zero
  let height := parseNumber attrs.height Q.zero
  if (width.leb Q.zero || height.leb Q.zero) && attrs.viewBox.getD "" != "" then
    let parts := jsSplitSep (attrs.viewBox.getD "")
    if parts.length = 4 then
      { width := parseNumber parts[2]? width
        height := parseNumber parts[3]? height }
    else { width := width, height := height }
  else { width := width, height := height }

/-- One decoded rect node: its attribute object may be absent (xml2js
yields no attribute object for a bare element). -/
structure RectNode where
  attrs : Option RectAttributes := none
deriving DecidableEq

/-- The rect field of the decoded root: with explicitArray disabled,
xml2js yields nothing, a single node, or a list of nodes. -/
inductive RectField
  | absent
  | single (r : RectNode)
  | list (rs : List RectNode)
deriving DecidableEq

/-- The decoded root svg element. -/
structure SvgNode where
  attrs : Option SVGAttributes := none
  rect : RectField := .absent
deriving DecidableEq

/-- Outcome of the xml2js decode under the withTimeout race: the timer can
win the race, the decoder can reject the text as not well formed, or a
tree is produced whose svg field may still be absent. -/
inductive DecodeResult
  | timeout
  | malformed
  | ok (svg : Option SvgNode)
deriving DecidableEq

/-- An input to parseContent, modelled by the UTF-8 byte length of its
text and by the decode outcome the external XML decoder produces for it. -/
structure SVGInput where
  byteLength : ℕ
  decode : DecodeResult
deriving DecidableEq

/-- Classification of the SVGParseError messages thrown by the source,
one constructor per throw site of the pipeline, carrying the configured
limit where the message names one. -/
inductive SVGParseError
  | payloadTooLarge (limitBytes : ℕ)
  | timeout (operation : String) (timeoutMs : ℕ)
  | invalidXML
  | missingRootElement
  | invalidDimensions
  | dimensionTooLarge (limitPx : ℕ)
deriving DecidableEq

/-- One extracted rectangle of the result. -/
structure RectangleItem where
  x : Q
  y : Q
  width : Q
  height : Q
  fill : String
  isOutOfBounds : Bool
deriving DecidableEq

/-- The issue flags. -/
inductive DesignIssue
  | EMPTY
  | OUT_OF_BOUNDS
deriving DecidableEq

/-- The parse result record. -/
structure ParsedSVGResult where
  svgWidth : Q
  svgHeight : Q
  items : List RectangleItem
  itemsCount : ℕ
  coverageRatio : Q
  issues : List DesignIssue
deriving DecidableEq

/-- Body of the per rect loop of parseContent: parse the geometry, skip
the rectangle when width or height is not positive (the continue branch),
otherwise build the item with its out of bounds flag. -/
def mkRectItem (svgWidth svgHeight : Q) (rect : RectNode) : Option RectangleItem :=
  let attrs := rect.attrs.getD {}
  let x := parseNumber attrs.x Q.zero
  let y := parseNumber attrs.y Q.zero
  let width := parseNumber attrs.width Q.zero
  let height := parseNumber attrs.height Q.zero
  if width.leb Q.zero || height.leb Q.zero then none
  else
    some { x := x, y := y, width := width, height := height,
           fill := extractFill attrs,
           isOutOfBounds := svgWidth.ltb (x.add width) || svgHeight.ltb (y.add height) }

/-- Normalization of the single versus list ambiguity (the Array.isArray
branch of the source); an absent rect field gives the empty list because
the source skips the whole block for a falsy rect field. -/
def rectList : RectField → List RectNode
  | .absent => []
  | .single r => [r]
  | .list rs => rs

/-- The extraction loop: truncate to the first maxRectangles nodes in
document order (the slice of the source), then keep the surviving
rectangles in order (the loop pushes exactly the nodes the continue
branch does not skip). -/
def extractItems (maxRectangles : ℕ) (svgWidth svgHeight : Q) (rs : List RectNode) :
    List RectangleItem :=
  (rs.take maxRectangles).filterMap (mkRectItem svgWidth svgHeight)

/-- The success tail of parseContent: issue flags and coverage ratio
derived from the extracted items, assembled into the result record. The
loop flag hasOutOfBounds is set exactly when some pushed item carries the
out of bounds flag, so it equals an any over the item list. -/
def buildResult (maxRectangles : ℕ) (svgWidth svgHeight : Q) (rs : List RectNode) :
    ParsedSVGResult :=
  let items := extractItems maxRectangles svgWidth svgHeight rs
  let hasOutOfBounds := items.any (fun it => it.isOutOfBounds)
  let issues :=
    (if items.length = 0 then [DesignIssue.EMPTY] else []) ++
    (if hasOutOfBounds then [DesignIssue.OUT_OF_BOUNDS] else [])
  let svgArea := svgWidth.mul svgHeight
  let totalRectArea := items.foldl (fun sum it => sum.add (it.width.mul it.height)) Q.zero
  let coverageRatio :=
    (Q.ofInt (jsMathRound ((totalRectArea.div svgArea).mul (Q.ofNat 10000)))).div
      (Q.ofNat 10000)
  { svgWidth := svgWidth, svgHeight := svgHeight, items := items,
    itemsCount := items.length, coverageRatio := coverageRatio, issues := issues }

/-- parseContent of the source over a decoded input: the validation gates
in source order (content size, decode with timeout, root element,
dimension positivity, dimension ceiling), then extraction and
aggregation. -/
def parseContent (input : SVGInput) : Except SVGParseError ParsedSVGResult :=
  if input.byteLength > PARSER_CONFIG.maxFileSizeBytes then
    .error (.payloadTooLarge PARSER_CONFIG.maxFileSizeBytes)
  else
    match input.decode with
    | .timeout => .error (.timeout "XML parsing" PARSER_CONFIG.parseTimeoutMs)
    | .malformed => .error .invalidXML
    | .ok none => .error .missingRootElement
    | .ok (some svg) =>
      let dims := parseDimensions (svg.attrs.getD {})
      if dims.width.leb Q.zero || dims.height.leb Q.zero then
        .error .invalidDimensions
      else if (Q.ofNat PARSER_CONFIG.maxDimension).ltb dims.width ||
          (Q.ofNat PARSER_CONFIG.maxDimension).ltb dims.height then
        .error (.dimensionTooLarge PARSER_CONFIG.maxDimension)
      else
        .ok (buildResult PARSER_CONFIG.maxRectangles dims.width dims.height
              (rectList svg.rect))


/-- Modelled from the spec (section 6, External Interfaces): the parse
operation taking an optional per call Limits argument, all four limits
independently overridable, the call being gated by the supplied values.
The pipeline is that of the source; only the limits come from the
argument instead of the process wide PARSER_CONFIG. -/
def specParseContentWithLimits (limits : ParserLimits) (input : SVGInput) :
    Except SVGParseError ParsedSVGResult :=
  if input.byteLength > limits.maxFileSizeBytes then
    .error (.payloadTooLarge limits.maxFileSizeBytes)
  else
    match input.decode with
    | .timeout => .error (.timeout "XML parsing" limits.parseTimeoutMs)
    | .malformed => .error .invalidXML
    | .ok none => .error .missingRootElement
    | .ok (some svg) =>
      let dims := parseDimensions (svg.attrs.getD {})
      if dims.width.leb Q.zero || dims.height.leb Q.zero then
        .error .invalidDimensions
      else if (Q.ofNat limits.maxDimension).ltb dims.width ||
          (Q.ofNat limits.maxDimension).ltb dims.height then
        .error (.dimensionTooLarge limits.maxDimension)
      else
        .ok (buildResult limits.maxRectangles dims.width dims.height
              (rectList svg.rect))

/-- The dimensions the pipeline resolves for a decoded root element. -/
def rootDims (svg : SvgNode) : Dimensions := parseDimensions (svg.attrs.getD {})

/-- The input passes every fatal validation gate of parseContent and its
decoded root element is svg: the byte length is within the ceiling, the
decoder produced the tree, the resolved dimensions are positive and
within the dimension ceiling (stated with the Boolean comparisons the
gates themselves evaluate, so the predicate is decidable). -/
def fatalGatesPass (input : SVGInput) (svg : SvgNode) : Prop :=
  input.byteLength ≤ PARSER_CONFIG.maxFileSizeBytes ∧
  input.decode = .ok (some svg) ∧
  ((rootDims svg).width.leb Q.zero || (rootDims svg).height.leb Q.zero) = false ∧
  ((Q.ofNat PARSER_CONFIG.maxDimension).ltb (rootDims svg).width ||
    (Q.ofNat PARSER_CONFIG.maxDimension).ltb (rootDims svg).height) = false

instance (input : SVGInput) (svg : SvgNode) : Decidable (fatalGatesPass input svg) := by
  unfold fatalGatesPass
  infer_instance

/-! Correctness lemmas for the fraction model. -/

theorem Q.dcast_pos (a : Q) : (0 : ℚ) < (a.d : ℚ) := by exact_mod_cast a.dpos

theorem Q.dcast_ne (a : Q) : ((a.d : ℚ)) ≠ 0 := ne_of_gt a.dcast_pos

theorem Q.toRat_zero : Q.zero.toRat = 0 := by simp [Q.zero, Q.toRat]

theorem Q.toRat_ofNat (k : ℕ) : (Q.ofNat k).toRat = k := by simp [Q.ofNat, Q.toRat]

theorem Q.toRat_ofInt (k : ℤ) : (Q.ofInt k).toRat = k := by simp [Q.ofInt, Q.toRat]

theorem Q.toRat_half : Q.half.toRat = 1 / 2 := by norm_num [Q.half, Q.toRat]

theorem Q.toRat_add (a b : Q) : (a.add b).toRat = a.toRat + b.toRat := by
  unfold Q.add Q.toRat
  rw [div_add_div _ _ a.dcast_ne b.dcast_ne]
  push_cast
  ring

theorem Q.toRat_mul (a b : Q) : (a.mul b).toRat = a.toRat * b.toRat := by
  unfold Q.mul Q.toRat
  rw [div_mul_div_comm]
  push_cast
  ring

theorem Q.toRat_inv (a : Q) : a.inv.toRat = a.toRat⁻¹ := by
  rcases lt_trichotomy a.n 0 with hneg | hz | hpos
  · rw [Q.inv, dif_neg (by omega), dif_pos hneg]
    unfold Q.toRat
    rw [inv_div]
    have hc : (((-a.n).toNat : ℕ) : ℚ) = ((-a.n : ℤ) : ℚ) := by
      exact_mod_cast Int.toNat_of_nonneg (by omega : (0 : ℤ) ≤ -a.n)
    rw [hc]
    push_cast
    rw [neg_div_neg_eq]
  · rw [Q.inv, dif_neg (by omega), dif_neg (by omega), Q.toRat_zero]
    unfold Q.toRat
    rw [hz]
    norm_num
  · rw [Q.inv, dif_pos hpos]
    unfold Q.toRat
    rw [inv_div]
    have hc : ((a.n.toNat : ℕ) : ℚ) = ((a.n : ℤ) : ℚ) := by
      exact_mod_cast Int.toNat_of_nonneg hpos.le
    dsimp only
    rw [hc]
    push_cast
    try rfl

theorem Q.toRat_div (a b : Q) : (a.div b).toRat = a.toRat / b.toRat := by
  unfold Q.div
  rw [Q.toRat_mul, Q.toRat_inv, div_eq_mul_inv]

theorem Q.leb_iff (a b : Q) : a.leb b = true ↔ a.toRat ≤ b.toRat := by
  unfold Q.leb Q.toRat
  simp only [decide_eq_true_eq]
  rw [div_le_div_iff₀ a.dcast_pos b.dcast_pos]
  constructor <;> intro h <;> exact_mod_cast h

theorem Q.ltb_iff (a b : Q) : a.ltb b = true ↔ a.toRat < b.toRat := by
  unfold Q.ltb Q.toRat
  simp only [decide_eq_true_eq]
  rw [div_lt_div_iff₀ a.dcast_pos b.dcast_pos]
  constructor <;> intro h <;> exact_mod_cast h

theorem Q.leb_false_iff (a b : Q) : a.leb b = false ↔ b.toRat < a.toRat := by
  rw [← not_le, ← Q.leb_iff]
  cases h : a.leb b <;> simp

theorem Q.ltb_false_iff (a b : Q) : a.ltb b = false ↔ b.toRat ≤ a.toRat := by
  rw [← not_lt, ← Q.ltb_iff]
  cases h : a.ltb b <;> simp

theorem Q.floorInt_eq (a : Q) : a.floorInt = ⌊a.toRat⌋ := by
  unfold Q.floorInt Q.toRat
  exact (Rat.floor_intCast_div_natCast a.n a.d).symm

theorem jsMathRound_eq (q : Q) : jsMathRound q = ⌊q.toRat + 1 / 2⌋ := by
  unfold jsMathRound
  rw [Q.floorInt_eq, Q.toRat_add, Q.toRat_half]

/-! Pipeline lemmas shared by the claim theorems. -/

theorem parseContent_eq_spec_config (input : SVGInput) :
    parseContent input = specParseContentWithLimits PARSER_CONFIG input := rfl

theorem parseContent_ok_of_gates (input : SVGInput) (svg : SvgNode)
    (h : fatalGatesPass input svg) :
    parseContent input =
      .ok (buildResult PARSER_CONFIG.maxRectangles (rootDims svg).width
            (rootDims svg).height (rectList svg.rect)) := by
  obtain ⟨hsize, hdec, hdim, hmax⟩ := h
  simp only [rootDims] at hdim hmax ⊢
  simp only [parseContent]
  rw [if_neg (by omega), hdec]
  simp [hdim, hmax]

theorem parseContent_ok_inv (input : SVGInput) (res : ParsedSVGResult)
    (h : parseContent input = .ok res) :
    ∃ svg : SvgNode, fatalGatesPass input svg ∧
      res = buildResult PARSER_CONFIG.maxRectangles (rootDims svg).width
              (rootDims svg).height (rectList svg.rect) := by
  simp only [parseContent] at h
  split at h
  · cases h
  next hsize =>
    split at h
    · cases h
    · cases h
    · cases h
    next svg heq =>
      split at h
      · cases h
      next hdim =>
        split at h
        · cases h
        next hmax =>
          cases h
          refine ⟨svg, ⟨by omega, heq, ?_, ?_⟩, rfl⟩
          · simp only [rootDims]
            simpa using hdim
          · simp only [rootDims]
            simpa using hmax

theorem buildResult_svgWidth (m : ℕ) (w h : Q) (rs : List RectNode) :
    (buildResult m w h rs).svgWidth = w := rfl

theorem buildResult_svgHeight (m : ℕ) (w h : Q) (rs : List RectNode) :
    (buildResult m w h rs).svgHeight = h := rfl

theorem buildResult_items (m : ℕ) (w h : Q) (rs : List RectNode) :
    (buildResult m w h rs).items = extractItems m w h rs := rfl

theorem buildResult_itemsCount (m : ℕ) (w h : Q) (rs : List RectNode) :
    (buildResult m w h rs).itemsCount = (extractItems m w h rs).length := rfl

theorem buildResult_issues (m : ℕ) (w h : Q) (rs : List RectNode) :
    (buildResult m w h rs).issues =
      (if (extractItems m w h rs).length = 0 then [DesignIssue.EMPTY] else []) ++
      (if (extractItems m w h rs).any (fun it => it.isOutOfBounds) then
        [DesignIssue.OUT_OF_BOUNDS] else []) := rfl

theorem buildResult_coverageRatio (m : ℕ) (w h : Q) (rs : List RectNode) :
    (buildResult m w h rs).coverageRatio =
      (Q.ofInt (jsMathRound ((((extractItems m w h rs).foldl
          (fun sum it => sum.add (it.width.mul it.height)) Q.zero).div (w.mul h)).mul
          (Q.ofNat 10000)))).div (Q.ofNat 10000) := rfl

theorem Q.toRat_eq_int_iff (a : Q) (z : ℤ) : a.toRat = z ↔ a.n = z * a.d := by
  unfold Q.toRat
  rw [div_eq_iff a.dcast_ne]
  constructor <;> intro h <;> exact_mod_cast h

theorem Q.toRat_pos_iff (a : Q) : 0 < a.toRat ↔ 0 < a.n := by
  rw [← Q.toRat_zero, ← Q.ltb_iff]
  unfold Q.ltb Q.zero
  simp

theorem mkRectItem_some_inv (w h : Q) (r : RectNode) (it : RectangleItem)
    (hit : mkRectItem w h r = some it) :
    (parseNumber (r.attrs.getD {}).width Q.zero).leb Q.zero = false ∧
    (parseNumber (r.attrs.getD {}).height Q.zero).leb Q.zero = false ∧
    it = { x := parseNumber (r.attrs.getD {}).x Q.zero,
           y := parseNumber (r.attrs.getD {}).y Q.zero,
           width := parseNumber (r.attrs.getD {}).width Q.zero,
           height := parseNumber (r.attrs.getD {}).height Q.zero,
           fill := extractFill (r.attrs.getD {}),
           isOutOfBounds := w.ltb ((parseNumber (r.attrs.getD {}).x Q.zero).add
               (parseNumber (r.attrs.getD {}).width Q.zero)) ||
             h.ltb ((parseNumber (r.attrs.getD {}).y Q.zero).add
               (parseNumber (r.attrs.getD {}).height Q.zero)) } := by
  simp only [mkRectItem] at hit
  split at hit
  · cases hit
  next hcond =>
    rw [Bool.or_eq_true, not_or, Bool.not_eq_true, Bool.not_eq_true] at hcond
    simp only [Option.some.injEq] at hit
    subst hit
    exact ⟨hcond.1, hcond.2, rfl⟩

theorem mkRectItem_isSome_iff (w h : Q) (r : RectNode) :
    (mkRectItem w h r).isSome = true ↔
      ((parseNumber (r.attrs.getD {}).width Q.zero).leb Q.zero = false ∧
       (parseNumber (r.attrs.getD {}).height Q.zero).leb Q.zero = false) := by
  simp only [mkRectItem]
  split
  next hcond =>
    simp only [Option.isSome_none]
    constructor
    · intro hx
      cases hx
    · rintro ⟨h1, h2⟩
      rw [h1, h2] at hcond
      cases hcond
  next hcond =>
    simp only [Option.isSome_some, true_iff]
    rw [Bool.or_eq_true, not_or, Bool.not_eq_true, Bool.not_eq_true] at hcond
    exact hcond

theorem length_filterMap_of_isSome {α β : Type} (f : α → Option β) (l : List α)
    (hall : ∀ a ∈ l, (f a).isSome = true) : (l.filterMap f).length = l.length := by
  induction l with
  | nil => rfl
  | cons a l ih =>
    rw [List.filterMap_cons]
    obtain ⟨b, hb⟩ := Option.isSome_iff_exists.mp (hall a (List.mem_cons_self a l))
    rw [hb]
    simp only [List.length_cons]
    rw [ih (fun x hx => hall x (List.mem_cons_of_mem a hx))]

theorem extractItems_length_le (m : ℕ) (w h : Q) (rs : List RectNode) :
    (extractItems m w h rs).length ≤ m := by
  unfold extractItems
  calc (List.filterMap (mkRectItem w h) (rs.take m)).length
      ≤ (rs.take m).length := List.length_filterMap_le _ _
    _ ≤ m := by
        rw [List.length_take]
        exact min_le_left _ _

theorem extractItems_mem (m : ℕ) (w h : Q) (rs : List RectNode) (it : RectangleItem)
    (hm : it ∈ extractItems m w h rs) :
    ∃ r ∈ rs, mkRectItem w h r = some it := by
  unfold extractItems at hm
  obtain ⟨r, hr, hsome⟩ := List.mem_filterMap.mp hm
  exact ⟨r, List.take_subset _ _ hr, hsome⟩

theorem extractItems_all_valid (m : ℕ) (w h : Q) (rs : List RectNode)
    (hall : ∀ r ∈ rs, (mkRectItem w h r).isSome = true) (hlen : m ≤ rs.length) :
    (extractItems m w h rs).length = m := by
  unfold extractItems
  rw [length_filterMap_of_isSome _ _ (fun r hr => hall r (List.take_subset _ _ hr))]
  rw [List.length_take]
  omega

theorem extractItems_append (m : ℕ) (w h : Q) (rs extra : List RectNode)
    (hlen : m ≤ rs.length) :
    extractItems m w h (rs ++ extra) = extractItems m w h rs := by
  unfold extractItems
  rw [List.take_append_of_le_length hlen]

theorem toRat_foldl_area (l : List RectangleItem) (init : Q) :
    (l.foldl (fun sum it => sum.add (it.width.mul it.height)) init).toRat =
      init.toRat + (l.map (fun it => it.width.toRat * it.height.toRat)).sum := by
  induction l generalizing init with
  | nil => simp
  | cons it l ih =>
    simp only [List.foldl_cons, List.map_cons, List.sum_cons]
    rw [ih, Q.toRat_add, Q.toRat_mul]
    ring

/-! Claim theorems. -/

/-- Claim C1, counterexample: the claim that a strictly positive width
from the direct attribute is never overridden by viewBox fails on the
code. With width 800, no height and viewBox 0 0 100 50, the width
attribute resolves to the strictly positive 800, yet the final resolved
width is 100 (viewBox field 3), because the fallback branch fires when
either value is nonpositive and then reassigns both. -/
theorem c1_counterexample :
    0 < (parseNumber (some "800") Q.zero).toRat ∧
    (parseDimensions { width := some "800", height := none, viewBox := some "0 0 100 50" }).width.toRat ≠
      (parseNumber (some "800") Q.zero).toRat := by
  constructor
  · exact (Q.toRat_pos_iff _).mpr (by decide)
  · have h1 : (parseDimensions { width := some "800", height := none, viewBox := some "0 0 100 50" }).width.toRat = (100 : ℤ) :=
      (Q.toRat_eq_int_iff _ 100).mpr (by decide)
    have h2 : (parseNumber (some "800") Q.zero).toRat = (800 : ℤ) :=
      (Q.toRat_eq_int_iff _ 800).mpr (by decide)
    rw [h1, h2]
    norm_num

/-- Claim C1 (amended): in dimension resolution, when BOTH the root width
and height attributes resolve to strictly positive numbers the final
dimensions equal those attribute values and viewBox is ignored; when
either resolves to a nonpositive number and a nonempty viewBox splits
into exactly four fields, viewBox fields 3 and 4 replace BOTH width and
height (each keeping its prior value only when its viewBox field does not
parse), so a positive width from the direct attribute IS overridden in
that case. -/
theorem c1_dimension_resolution (attrs : SVGAttributes) :
    (0 < (parseNumber attrs.width Q.zero).toRat →
      0 < (parseNumber attrs.height Q.zero).toRat →
      parseDimensions attrs =
        { width := parseNumber attrs.width Q.zero,
          height := parseNumber attrs.height Q.zero }) ∧
    (∀ vb : String,
      ((parseNumber attrs.width Q.zero).toRat ≤ 0 ∨
        (parseNumber attrs.height Q.zero).toRat ≤ 0) →
      attrs.viewBox = some vb → vb ≠ "" → (jsSplitSep vb).length = 4 →
      parseDimensions attrs =
        { width := parseNumber (jsSplitSep vb)[2]? (parseNumber attrs.width Q.zero),
          height := parseNumber (jsSplitSep vb)[3]? (parseNumber attrs.height Q.zero) }) := by
  constructor
  · intro hw hh
    have hw2 : (parseNumber attrs.width Q.zero).leb Q.zero = false := by
      rw [Q.leb_false_iff, Q.toRat_zero]
      exact hw
    have hh2 : (parseNumber attrs.height Q.zero).leb Q.zero = false := by
      rw [Q.leb_false_iff, Q.toRat_zero]
      exact hh
    simp only [parseDimensions]
    rw [hw2, hh2]
    simp
  · intro vb hle hvb hne hlen
    have hcond : ((parseNumber attrs.width Q.zero).leb Q.zero ||
        (parseNumber attrs.height Q.zero).leb Q.zero) = true := by
      rcases hle with hle | hle
      · rw [Bool.or_eq_true]
        exact Or.inl ((Q.leb_iff _ _).mpr (by rw [Q.toRat_zero]; exact hle))
      · rw [Bool.or_eq_true]
        exact Or.inr ((Q.leb_iff _ _).mpr (by rw [Q.toRat_zero]; exact hle))
    have hb : (vb != "") = true := bne_iff_ne.mpr hne
    simp only [parseDimensions, hvb, Option.getD_some]
    rw [hcond, hb, hlen]
    simp

/-- Witness for the C1 theorem: with width 800px and height 600 both
branches of the first conjunct apply and give 800 by 600; with width 800,
no height and viewBox 0,0,1000,500 the second conjunct applies and the
result comes from the viewBox fields. -/
theorem c1_dimension_resolution_witness :
    (0 < (parseNumber (some "800px") Q.zero).toRat ∧
     0 < (parseNumber (some "600") Q.zero).toRat ∧
     parseDimensions { width := some "800px", height := some "600", viewBox := none } =
       { width := parseNumber (some "800px") Q.zero,
         height := parseNumber (some "600") Q.zero }) ∧
    ((parseNumber (none : Option String) Q.zero).toRat ≤ 0 ∧
     parseDimensions { width := some "800", height := none, viewBox := some "0,0,1000,500" } =
       { width := parseNumber (jsSplitSep "0,0,1000,500")[2]? (parseNumber (some "800") Q.zero),
         height := parseNumber (jsSplitSep "0,0,1000,500")[3]?
           (parseNumber (none : Option String) Q.zero) }) := by
  have hw : 0 < (parseNumber (some "800px") Q.zero).toRat :=
    (Q.toRat_pos_iff _).mpr (by decide)
  have hh : 0 < (parseNumber (some "600") Q.zero).toRat :=
    (Q.toRat_pos_iff _).mpr (by decide)
  have hz : (parseNumber (none : Option String) Q.zero).toRat ≤ 0 := by
    rw [show parseNumber (none : Option String) Q.zero = Q.zero from rfl, Q.toRat_zero]
  refine ⟨⟨hw, hh, ?_⟩, hz, ?_⟩
  · exact (c1_dimension_resolution { width := some "800px", height := some "600", viewBox := none }).1 hw hh
  · exact (c1_dimension_resolution { width := some "800", height := none, viewBox := some "0,0,1000,500" }).2 "0,0,1000,500" (Or.inr hz) rfl (by decide) (by decide)

/-- Claim C2, counterexample: the source exposes no per call limits; its
only parse operation is gated by the process wide PARSER_CONFIG. For a
one rectangle input and supplied limits with maxRectangles zero, the spec
modelled limits respecting call yields zero items while the call of the
source yields one item, so the invocation is not gated by supplied
values. -/
theorem c2_counterexample :
    (parseContent ⟨100, .ok (some { attrs := some { width := some "100", height := some "100" }, rect := .single { attrs := some { width := some "10", height := some "10" } } })⟩).toOption.map (fun r => r.itemsCount) = some 1 ∧
    (specParseContentWithLimits { PARSER_CONFIG with maxRectangles := 0 }
      ⟨100, .ok (some { attrs := some { width := some "100", height := some "100" }, rect := .single { attrs := some { width := some "10", height := some "10" } } })⟩).toOption.map (fun r => r.itemsCount) = some 0 :=
  ⟨by decide, by decide⟩

/-- Claim C2 (amended): the four limits are a process wide frozen
configuration with exactly the documented defaults, and every invocation
of the source parse operation is gated by these process wide values (it
coincides with the limits parameterised pipeline applied to
PARSER_CONFIG); no per call override exists in the source. -/
theorem c2_limits_process_wide :
    PARSER_CONFIG = { maxFileSizeBytes := 5242880, maxRectangles := 10000,
                      maxDimension := 100000, parseTimeoutMs := 5000 } ∧
    ∀ input : SVGInput,
      parseContent input = specParseContentWithLimits PARSER_CONFIG input :=
  ⟨rfl, fun input => parseContent_eq_spec_config input⟩

/-- Claim C9, counterexample: a fill attribute that is present but equal
to the empty string is not returned verbatim; the style declaration wins
instead, refuting the claim that a present fill attribute is always used
verbatim. -/
theorem c9_counterexample :
    ({ fill := some "", style := some "fill:#00FF00" } : RectAttributes).fill
      = some "" ∧
    extractFill { fill := some "", style := some "fill:#00FF00" } = "#00FF00" ∧
    extractFill { fill := some "", style := some "fill:#00FF00" } ≠ "" :=
  ⟨rfl, by decide, by decide⟩

/-- Claim C9 (amended): the resolved fill is the explicit fill attribute
verbatim when present AND nonempty; otherwise (fill absent or empty) the
value of a fill declaration found case insensitively in the style
attribute, taken up to the next semicolon and stripped of surrounding
whitespace, when one matches; otherwise the default black. -/
theorem c9_fill_resolution (attrs : RectAttributes) :
    (∀ f : String, attrs.fill = some f → f ≠ "" → extractFill attrs = f) ∧
    ((attrs.fill = none ∨ attrs.fill = some "") →
      ((attrs.style = none → extractFill attrs = "#000000") ∧
       (∀ st : String, attrs.style = some st →
         extractFill attrs =
           (match findFillValue st.data with
            | some v => String.mk (jsTrim v)
            | none => "#000000")))) := by
  constructor
  · intro f hf hne
    simp only [extractFill, hf, Option.getD_some]
    rw [if_pos hne]
  · intro hfe
    have hgetd : attrs.fill.getD "" = "" := by
      rcases hfe with h | h <;> rw [h] <;> rfl
    constructor
    · intro hst
      simp [extractFill, hgetd, hst]
    · intro st hst
      simp [extractFill, hgetd, hst]

/-- Witness for the C9 theorem: the attribute wins over the style when
nonempty (the precedence example of the claim), and with no usable fill
attribute the style lookup is case insensitive, stops at the semicolon
and trims whitespace. -/
theorem c9_fill_resolution_witness :
    extractFill { fill := some "#FF0000", style := some "fill:#00FF00" } = "#FF0000" ∧
    extractFill { style := some "FILL : #00ff00 ; stroke:blue" } = "#00ff00" := by
  constructor
  · exact (c9_fill_resolution _).1 "#FF0000" rfl (by decide)
  · have h := ((c9_fill_resolution
        { style := some "FILL : #00ff00 ; stroke:blue" }).2 (Or.inl rfl)).2
        "FILL : #00ff00 ; stroke:blue" rfl
    rw [h]
    decide

/-- Claim C10: a present but empty fill attribute is treated exactly as
an absent one: the resolution equals the resolution with the attribute
removed, namely the trimmed style declaration value when one matches,
else the default black; the empty attribute value itself is never
returned. -/
theorem c10_empty_fill (attrs : RectAttributes) (hf : attrs.fill = some "") :
    extractFill attrs = extractFill { attrs with fill := none } ∧
    (attrs.style = none → extractFill attrs = "#000000") ∧
    (∀ st : String, attrs.style = some st →
      extractFill attrs =
        (match findFillValue st.data with
         | some v => String.mk (jsTrim v)
         | none => "#000000")) := by
  refine ⟨?_, ?_, ?_⟩
  · simp [extractFill, hf]
  · intro hst
    simp [extractFill, hf, hst]
  · intro st hst
    simp [extractFill, hf, hst]

/-- Witness for the C10 theorem: with fill equal to the empty string and
a green style declaration, the resolution equals the one with the fill
attribute absent, and both give the style value, not the empty string. -/
theorem c10_empty_fill_witness :
    extractFill { fill := some "", style := some "fill:#00FF00" } =
      extractFill { fill := none, style := some "fill:#00FF00" } ∧
    extractFill { fill := some "", style := some "fill:#00FF00" } = "#00FF00" := by
  have h := c10_empty_fill { fill := some "", style := some "fill:#00FF00" } rfl
  refine ⟨h.1, ?_⟩
  rw [h.2.2 "fill:#00FF00" rfl]
  decide

/-- Claim C3: the fatal validation gates of parseContent run in a fixed
linear order: byte size (PayloadTooLarge class, before any decoding, for
every decode outcome), decode (Timeout or InvalidXML class), root element
presence (MissingRootElement class), dimension positivity
(InvalidDimensions class), dimension ceiling (DimensionTooLarge class);
the first failing gate determines the classified error, every failure is
terminal (an error value, never a partial result), and when every gate
passes a result is returned. -/
theorem c3_gate_order (input : SVGInput) :
    (input.byteLength > PARSER_CONFIG.maxFileSizeBytes →
      parseContent input = .error (.payloadTooLarge PARSER_CONFIG.maxFileSizeBytes)) ∧
    (input.byteLength ≤ PARSER_CONFIG.maxFileSizeBytes →
      ((input.decode = .timeout →
          parseContent input =
            .error (.timeout "XML parsing" PARSER_CONFIG.parseTimeoutMs)) ∧
       (input.decode = .malformed → parseContent input = .error .invalidXML) ∧
       (input.decode = .ok none → parseContent input = .error .missingRootElement) ∧
       (∀ svg : SvgNode, input.decode = .ok (some svg) →
         (((rootDims svg).width.toRat ≤ 0 ∨ (rootDims svg).height.toRat ≤ 0) →
            parseContent input = .error .invalidDimensions) ∧
         (0 < (rootDims svg).width.toRat → 0 < (rootDims svg).height.toRat →
           ((((PARSER_CONFIG.maxDimension : ℚ) < (rootDims svg).width.toRat ∨
              (PARSER_CONFIG.maxDimension : ℚ) < (rootDims svg).height.toRat) →
              parseContent input =
                .error (.dimensionTooLarge PARSER_CONFIG.maxDimension)) ∧
            ((rootDims svg).width.toRat ≤ (PARSER_CONFIG.maxDimension : ℚ) →
             (rootDims svg).height.toRat ≤ (PARSER_CONFIG.maxDimension : ℚ) →
              ∃ res : ParsedSVGResult, parseContent input = .ok res)))))) := by
  refine ⟨?_, ?_⟩
  · intro hsize
    simp only [parseContent]
    rw [if_pos hsize]
  · intro hsize
    refine ⟨?_, ?_, ?_, ?_⟩
    · intro hdec
      simp only [parseContent]
      rw [if_neg (by omega), hdec]
    · intro hdec
      simp only [parseContent]
      rw [if_neg (by omega), hdec]
    · intro hdec
      simp only [parseContent]
      rw [if_neg (by omega), hdec]
    · intro svg hdec
      refine ⟨?_, ?_⟩
      · intro hle
        have hcond : ((rootDims svg).width.leb Q.zero ||
            (rootDims svg).height.leb Q.zero) = true := by
          rw [Bool.or_eq_true]
          rcases hle with h | h
          · exact Or.inl ((Q.leb_iff _ _).mpr (by rw [Q.toRat_zero]; exact h))
          · exact Or.inr ((Q.leb_iff _ _).mpr (by rw [Q.toRat_zero]; exact h))
        simp only [rootDims] at hcond
        simp only [parseContent]
        rw [if_neg (by omega), hdec]
        simp [hcond]
      · intro hw hh
        have h1 : (rootDims svg).width.leb Q.zero = false := by
          rw [Q.leb_false_iff, Q.toRat_zero]
          exact hw
        have h2 : (rootDims svg).height.leb Q.zero = false := by
          rw [Q.leb_false_iff, Q.toRat_zero]
          exact hh
        have hcond : ((rootDims svg).width.leb Q.zero ||
            (rootDims svg).height.leb Q.zero) = false := by
          rw [h1, h2]
          rfl
        refine ⟨?_, ?_⟩
        · intro hbig
          have hcond2 : ((Q.ofNat PARSER_CONFIG.maxDimension).ltb (rootDims svg).width ||
              (Q.ofNat PARSER_CONFIG.maxDimension).ltb (rootDims svg).height) = true := by
            rw [Bool.or_eq_true]
            rcases hbig with h | h
            · exact Or.inl ((Q.ltb_iff _ _).mpr (by rw [Q.toRat_ofNat]; exact h))
            · exact Or.inr ((Q.ltb_iff _ _).mpr (by rw [Q.toRat_ofNat]; exact h))
          simp only [rootDims] at hcond hcond2
          simp only [parseContent]
          rw [if_neg (by omega), hdec]
          simp [hcond, hcond2]
        · intro hwle hhle
          have h3 : (Q.ofNat PARSER_CONFIG.maxDimension).ltb (rootDims svg).width = false := by
            rw [Q.ltb_false_iff, Q.toRat_ofNat]
            exact hwle
          have h4 : (Q.ofNat PARSER_CONFIG.maxDimension).ltb (rootDims svg).height = false := by
            rw [Q.ltb_false_iff, Q.toRat_ofNat]
            exact hhle
          have hcond2 : ((Q.ofNat PARSER_CONFIG.maxDimension).ltb (rootDims svg).width ||
              (Q.ofNat PARSER_CONFIG.maxDimension).ltb (rootDims svg).height) = false := by
            rw [h3, h4]
            rfl
          exact ⟨_, parseContent_ok_of_gates input svg ⟨hsize, hdec, hcond, hcond2⟩⟩

/-- Witness for the C3 theorem: an input one byte over the ceiling whose
decode would time out still fails with the payload class error, showing
the size gate fires before any decoding. -/
theorem c3_gate_order_witness :
    5242881 > PARSER_CONFIG.maxFileSizeBytes ∧
    parseContent ⟨5242881, .timeout⟩ =
      .error (.payloadTooLarge PARSER_CONFIG.maxFileSizeBytes) :=
  ⟨by decide, (c3_gate_order ⟨5242881, .timeout⟩).1 (by decide)⟩

/-- Claim C4: for every surviving rectangle of a successful result, the
out of bounds flag holds iff x + width strictly exceeds the canvas width
or y + height strictly exceeds the canvas height (exactly reaching the
boundary is in bounds). -/
theorem c4_out_of_bounds (input : SVGInput) (res : ParsedSVGResult)
    (h : parseContent input = .ok res) :
    ∀ it ∈ res.items,
      (it.isOutOfBounds = true ↔
        (res.svgWidth.toRat < it.x.toRat + it.width.toRat ∨
         res.svgHeight.toRat < it.y.toRat + it.height.toRat)) := by
  obtain ⟨svg, hg, hres⟩ := parseContent_ok_inv input res h
  subst hres
  intro it hit
  rw [buildResult_items] at hit
  rw [buildResult_svgWidth, buildResult_svgHeight]
  obtain ⟨r, hr, hsome⟩ := extractItems_mem _ _ _ _ _ hit
  obtain ⟨hw, hh, hitdef⟩ := mkRectItem_some_inv _ _ _ _ hsome
  subst hitdef
  dsimp only
  rw [Bool.or_eq_true, Q.ltb_iff, Q.ltb_iff, Q.toRat_add, Q.toRat_add]

/-- Witness for the C4 theorem: on an 800 by 600 canvas the rectangle at
x 700 of width 100 exactly reaches the boundary and is in bounds, while
the one at x 750 exceeds it and is flagged. -/
theorem c4_out_of_bounds_witness :
    ∃ res : ParsedSVGResult,
      parseContent ⟨200, .ok (some { attrs := some { width := some "800", height := some "600" }, rect := .list [{ attrs := some { x := some "700", y := some "0", width := some "100", height := some "100" } }, { attrs := some { x := some "750", y := some "0", width := some "100", height := some "100" } }] })⟩ = .ok res ∧
      (∀ it ∈ res.items,
        (it.isOutOfBounds = true ↔
          (res.svgWidth.toRat < it.x.toRat + it.width.toRat ∨
           res.svgHeight.toRat < it.y.toRat + it.height.toRat))) ∧
      res.items.map (fun it => it.isOutOfBounds) = [false, true] := by
  have h := c4_out_of_bounds ⟨200, .ok (some { attrs := some { width := some "800", height := some "600" }, rect := .list [{ attrs := some { x := some "700", y := some "0", width := some "100", height := some "100" } }, { attrs := some { x := some "750", y := some "0", width := some "100", height := some "100" } }] })⟩ _ rfl
  exact ⟨_, rfl, h, by decide⟩

/-- Claim C5: for every successful result the coverage ratio equals the
sum of width times height over all surviving rectangles, divided by the
canvas area, rounded to four decimal places (half up); no surviving
rectangle is excluded from the sum, and overlap is not subtracted, so
the ratio can exceed one. -/
theorem c5_coverage_ratio (input : SVGInput) (res : ParsedSVGResult)
    (h : parseContent input = .ok res) :
    res.coverageRatio.toRat =
      (⌊(res.items.map (fun it => it.width.toRat * it.height.toRat)).sum /
          (res.svgWidth.toRat * res.svgHeight.toRat) * 10000 + 1 / 2⌋ : ℚ) / 10000 := by
  obtain ⟨svg, hg, hres⟩ := parseContent_ok_inv input res h
  subst hres
  rw [buildResult_coverageRatio, buildResult_items, buildResult_svgWidth,
    buildResult_svgHeight]
  rw [Q.toRat_div, Q.toRat_ofInt, Q.toRat_ofNat, jsMathRound_eq, Q.toRat_mul,
    Q.toRat_div, Q.toRat_mul, Q.toRat_ofNat]
  rw [toRat_foldl_area, Q.toRat_zero]
  norm_num

/-- Witness for the C5 theorem: two rectangles each covering the whole
100 by 100 canvas give a coverage ratio of 2 (overlap not subtracted). -/
theorem c5_coverage_ratio_witness :
    ∃ res : ParsedSVGResult,
      parseContent ⟨90, .ok (some { attrs := some { width := some "100", height := some "100" }, rect := .list [{ attrs := some { width := some "100", height := some "100" } }, { attrs := some { width := some "100", height := some "100" } }] })⟩ = .ok res ∧
      res.coverageRatio.toRat =
        (⌊(res.items.map (fun it => it.width.toRat * it.height.toRat)).sum /
            (res.svgWidth.toRat * res.svgHeight.toRat) * 10000 + 1 / 2⌋ : ℚ) / 10000 ∧
      res.coverageRatio.toRat = 2 := by
  have h := c5_coverage_ratio ⟨90, .ok (some { attrs := some { width := some "100", height := some "100" }, rect := .list [{ attrs := some { width := some "100", height := some "100" } }, { attrs := some { width := some "100", height := some "100" } }] })⟩ _ rfl
  refine ⟨_, rfl, h, ?_⟩
  exact_mod_cast (Q.toRat_eq_int_iff _ 2).mpr (by decide)

/-- Claim C6: once the fatal gates pass, per rectangle problems never
abort the parse: the call returns a result; every surviving item has
strictly positive width and height (nonpositive rectangles are dropped
silently, absent from the items); at most maxRectangles items survive;
nodes beyond the maxRectangles prefix are ignored (appending further
nodes changes nothing); and with more than maxRectangles valid
rectangles the result has exactly maxRectangles items, no error. -/
theorem c6_per_rect_non_fatal (input : SVGInput) (svg : SvgNode)
    (hg : fatalGatesPass input svg) :
    ∃ res : ParsedSVGResult, parseContent input = .ok res ∧
      (∀ it ∈ res.items, 0 < it.width.toRat ∧ 0 < it.height.toRat) ∧
      res.items.length ≤ PARSER_CONFIG.maxRectangles ∧
      (∀ extra : List RectNode,
        PARSER_CONFIG.maxRectangles ≤ (rectList svg.rect).length →
        extractItems PARSER_CONFIG.maxRectangles (rootDims svg).width
            (rootDims svg).height (rectList svg.rect ++ extra) = res.items) ∧
      ((∀ r ∈ rectList svg.rect,
          (mkRectItem (rootDims svg).width (rootDims svg).height r).isSome = true) →
        PARSER_CONFIG.maxRectangles < (rectList svg.rect).length →
        res.items.length = PARSER_CONFIG.maxRectangles) := by
  refine ⟨_, parseContent_ok_of_gates input svg hg, ?_, ?_, ?_, ?_⟩
  · intro it hit
    rw [buildResult_items] at hit
    obtain ⟨r, hr, hsome⟩ := extractItems_mem _ _ _ _ _ hit
    obtain ⟨hw, hh, hitdef⟩ := mkRectItem_some_inv _ _ _ _ hsome
    subst hitdef
    rw [Q.leb_false_iff, Q.toRat_zero] at hw hh
    exact ⟨hw, hh⟩
  · rw [buildResult_items]
    exact extractItems_length_le _ _ _ _
  · intro extra hlen
    rw [buildResult_items]
    exact extractItems_append _ _ _ _ _ hlen
  · intro hall hlen
    rw [buildResult_items]
    exact extractItems_all_valid _ _ _ _ hall (le_of_lt hlen)

/-- Witness for the C6 theorem: an input with 10001 identical valid
rectangles passes the gates and yields exactly maxRectangles items. -/
theorem c6_per_rect_non_fatal_witness :
    ∃ res : ParsedSVGResult,
      parseContent ⟨120, .ok (some { attrs := some { width := some "100", height := some "100" }, rect := .list (List.replicate 10001 { attrs := some { x := some "1", y := some "1", width := some "5", height := some "5" } }) })⟩ = .ok res ∧
      res.items.length = PARSER_CONFIG.maxRectangles := by
  obtain ⟨res, hok, hpos, hle, happ, htr⟩ :=
    c6_per_rect_non_fatal
      ⟨120, .ok (some { attrs := some { width := some "100", height := some "100" }, rect := .list (List.replicate 10001 { attrs := some { x := some "1", y := some "1", width := some "5", height := some "5" } }) })⟩
      { attrs := some { width := some "100", height := some "100" }, rect := .list (List.replicate 10001 { attrs := some { x := some "1", y := some "1", width := some "5", height := some "5" } }) }
      ⟨by decide, rfl, by decide, by decide⟩
  refine ⟨res, hok, htr ?_ ?_⟩
  · intro r hr
    have hreq : r = { attrs := some { x := some "1", y := some "1", width := some "5", height := some "5" } } :=
      List.eq_of_mem_replicate hr
    subst hreq
    decide
  · show PARSER_CONFIG.maxRectangles <
      (List.replicate 10001 ({ attrs := some { x := some "1", y := some "1", width := some "5", height := some "5" } } : RectNode)).length
    rw [List.length_replicate]
    norm_num [PARSER_CONFIG]

/-- Claim C7: in every successful result the issues sequence contains
EMPTY iff there are no surviving rectangles, contains OUT_OF_BOUNDS iff
some surviving rectangle is flagged, and never contains duplicates. -/
theorem c7_issue_flags (input : SVGInput) (res : ParsedSVGResult)
    (h : parseContent input = .ok res) :
    (DesignIssue.EMPTY ∈ res.issues ↔ res.items = []) ∧
    (DesignIssue.OUT_OF_BOUNDS ∈ res.issues ↔
      ∃ it ∈ res.items, it.isOutOfBounds = true) ∧
    res.issues.Nodup := by
  obtain ⟨svg, hg, hres⟩ := parseContent_ok_inv input res h
  subst hres
  rw [buildResult_issues, buildResult_items]
  set l := extractItems PARSER_CONFIG.maxRectangles (rootDims svg).width
    (rootDims svg).height (rectList svg.rect) with hl
  by_cases h0 : l.length = 0 <;>
    by_cases hb : l.any (fun it => it.isOutOfBounds) = true <;>
    refine ⟨?_, ?_, ?_⟩ <;>
    simp [h0, hb, ← List.length_eq_zero, ← List.any_eq_true]

/-- Witness for the C7 theorem: an input with no rect nodes yields the
EMPTY issue and nothing else. -/
theorem c7_issue_flags_witness :
    ∃ res : ParsedSVGResult,
      parseContent ⟨60, .ok (some { attrs := some { width := some "100", height := some "100" }, rect := .absent })⟩ = .ok res ∧
      (DesignIssue.EMPTY ∈ res.issues ↔ res.items = []) ∧
      res.issues = [DesignIssue.EMPTY] := by
  have h := c7_issue_flags ⟨60, .ok (some { attrs := some { width := some "100", height := some "100" }, rect := .absent })⟩ _ rfl
  exact ⟨_, rfl, h.1, by decide⟩

/-- Claim C8: the extractor normalizes the single node versus list
ambiguity of the decoder: when the decoded root carries a single rect
node that survives extraction, the successful result counts exactly one
item, not zero. -/
theorem c8_single_node (input : SVGInput) (svg : SvgNode) (r : RectNode)
    (hg : fatalGatesPass input svg) (hrect : svg.rect = .single r)
    (hvalid : (mkRectItem (rootDims svg).width (rootDims svg).height r).isSome = true) :
    ∃ res : ParsedSVGResult, parseContent input = .ok res ∧ res.itemsCount = 1 := by
  refine ⟨_, parseContent_ok_of_gates input svg hg, ?_⟩
  rw [buildResult_itemsCount, hrect]
  have hone : rectList (.single r) = [r] := rfl
  rw [hone]
  unfold extractItems
  rw [List.take_of_length_le (by norm_num [PARSER_CONFIG])]
  obtain ⟨it, hit⟩ := Option.isSome_iff_exists.mp hvalid
  simp [List.filterMap_cons, hit]

/-- Witness for the C8 theorem: a root with exactly one valid rect as a
single node (not a one element list) yields itemsCount one. -/
theorem c8_single_node_witness :
    ∃ res : ParsedSVGResult,
      parseContent ⟨80, .ok (some { attrs := some { width := some "300", height := some "200" }, rect := .single { attrs := some { x := some "10", y := some "10", width := some "50", height := some "40" } } })⟩ = .ok res ∧
      res.itemsCount = 1 :=
  c8_single_node
    ⟨80, .ok (some { attrs := some { width := some "300", height := some "200" }, rect := .single { attrs := some { x := some "10", y := some "10", width := some "50", height := some "40" } } })⟩
    { attrs := some { width := some "300", height := some "200" }, rect := .single { attrs := some { x := some "10", y := some "10", width := some "50", height := some "40" } } }
    { attrs := some { x := some "10", y := some "10", width := some "50", height := some "40" } }
    ⟨by decide, rfl, by decide, by decide⟩ rfl (by decide)

end SvgProcessor
